import Mathlib

/-!
Verification of the conversation-orchestration core of mistral-vibe.

The repository ships the test suite (`tests/`), while the `vibe` package
itself is not among the provided files.  Every definition below is therefore
a shallow embedding reconstructed from the specification's wording, with the
concrete behaviour (exact message strings, event orders, flush points)
pinned by the repository's tests.  Pure data is modelled directly; effectful
operations (terminal I/O, backend calls) become explicit function parameters
or recorded action traces, and fallible operations return `Except`.
-/

namespace Vibe

/-- Modelled from the spec: the `role` field of a Message
(`vibe.core.types.Role`), one of system, user, assistant, tool. -/
inductive Role where
  | system
  | user
  | assistant
  | tool
deriving DecidableEq

/-- Modelled from the spec: `function.name` and `function.arguments` of a
ToolCall (`vibe.core.types.FunctionCall`); `arguments` is an opaque string
built incrementally by the Stream Assembler. -/
structure FunctionCall where
  name : String
  arguments : String
deriving DecidableEq

/-- Modelled from the spec: a ToolCall (`vibe.core.types.ToolCall`) with its
`id`, its `index` (position within the assistant's batch, used to correlate
streamed fragments) and its function. A streamed partial tool-call fragment
is carried by the same shape, with possibly empty `id`/`name` on
continuation fragments. -/
structure ToolCall where
  id : String
  index : Nat
  function : FunctionCall
deriving DecidableEq

/-- Modelled from the spec: a Message (`vibe.core.types.LLMMessage`): role,
nullable content, ordered tool calls, and the `tool_call_id`/`name` pair
linking a tool-role message to its originating call. -/
structure LLMMessage where
  role : Role
  content : Option String
  tool_calls : List ToolCall
  tool_call_id : Option String
  name : Option String
deriving DecidableEq

/-- Modelled from the spec: one incremental unit of a streamed backend
response (`vibe.core.types.LLMChunk`, flattened as in spec section 4.1): an
optional text delta, an optional list of partial tool-call fragments keyed
by `index`, and an optional terminal `finish_reason`. -/
structure LLMChunk where
  content : Option String
  tool_calls : List ToolCall
  finish_reason : Option String
deriving DecidableEq

/-- Modelled from the spec: the Event union (`vibe.core.types`), the unit of
progress reported to the caller. -/
inductive Event where
  | assistant (content : String)
  | toolCall (tool_name : String) (tool_call_id : String) (arguments : String)
  | toolResult (tool_name : String) (tool_call_id : String)
      (error : Option String) (skipped : Bool) (skip_reason : Option String)
  | compactStart (current_context_tokens : Nat) (threshold : Nat)
  | compactEnd (old_context_tokens : Nat) (new_context_tokens : Nat)
deriving DecidableEq

/-! ## Stream Assembler (spec section 4.1)

The assembler keeps one text accumulator and one ordered map from `index`
to the (id, name, argument-string-so-far) of a tool call.  The map is an
association list ordered by first appearance of each index. -/

/-- Modelled from the spec: the Stream Assembler's running state: the
current text-batch accumulator, the batches flushed so far (in order), the
merged tool calls so far (ordered by first appearance of their index), and
whether a terminal `finish_reason` has been seen. -/
structure StreamState where
  acc : String
  batches : List String
  calls : List ToolCall
  finished : Bool
deriving DecidableEq

/-- Modelled from the spec: flush the text accumulator into a batch (a batch
flush "produces one AssistantEvent"); an empty accumulator flushes
nothing. -/
def flushAcc (st : StreamState) : StreamState :=
  if st.acc = "" then st else { st with acc := "", batches := st.batches ++ [st.acc] }

/-- Modelled from the spec: merge one partial tool-call fragment into the
already-open entry with the same index: "id and name are set once from the
first fragment bearing them; otherwise append its `arguments` delta to the
existing entry's argument string (pure string concatenation)". -/
def mergeInto (entry frag : ToolCall) : ToolCall :=
  { id := if entry.id = "" then frag.id else entry.id
    index := entry.index
    function :=
      { name := if entry.function.name = "" then frag.function.name else entry.function.name
        arguments := entry.function.arguments ++ frag.function.arguments } }

/-- Modelled from the spec: route one partial tool-call fragment: "if its
index is new, open an entry; otherwise append to the existing entry". New
entries open at the end, preserving arrival order. -/
def insertFrag (calls : List ToolCall) (frag : ToolCall) : List ToolCall :=
  match calls with
  | [] => [frag]
  | c :: rest =>
      if c.index = frag.index then mergeInto c frag :: rest
      else c :: insertFrag rest frag

/-- Modelled from the spec: the streaming batcher's minimum batch size in
characters; the spec's flush example (section 8) flushes "Hello from Vibe!
More" (21 characters) as one batch before the terminal flush. -/
def minBatchChars : Nat := 20

/-- Modelled from the spec: consume one fragment: append any text delta to
the accumulator; a flush occurs when a tool-call fragment appears after
text was accumulated, when the batch reaches `minBatchChars`, or when
`finish_reason` is present; each tool-call fragment is merged by index. -/
def processChunk (st : StreamState) (chunk : LLMChunk) : StreamState :=
  let st1 := { st with acc := st.acc ++ chunk.content.getD "" }
  let st2 := if chunk.tool_calls.isEmpty then st1 else flushAcc st1
  let st3 := { st2 with calls := chunk.tool_calls.foldl insertFrag st2.calls }
  let st4 := if minBatchChars ≤ st3.acc.length then flushAcc st3 else st3
  if chunk.finish_reason.isSome then { flushAcc st4 with finished := true } else st4

/-- Modelled from the spec: the empty assembler state at the start of a
streamed response. -/
def initStream : StreamState := ⟨"", [], [], false⟩

/-- Modelled from the spec: run the Stream Assembler over a whole fragment
sequence. -/
def runStream (chunks : List LLMChunk) : StreamState :=
  chunks.foldl processChunk initStream

/-- Modelled from the spec: the fatal error raised when a streamed
completion's fragment sequence ends without a terminal signal; the message
is the one the test suite pins
(`test_act_raises_when_stream_never_signals_finish`). -/
def noChunksError : String := "Streamed completion returned no chunks"

/-- Modelled from the spec: the outcome of one streamed backend round: the
AssistantEvents for the flushed text batches, and the assistant message
appended to history (full text, final merged tool calls). -/
structure StreamRound where
  events : List Event
  message : LLMMessage
deriving DecidableEq

/-- Modelled from the spec: assemble one streamed response. If no fragment
carried a terminal `finish_reason`, the round fails with `noChunksError`
before producing a final event; otherwise it yields one AssistantEvent per
flushed batch and the assistant history message holding the concatenated
text and the merged tool calls. -/
def streamRound (chunks : List LLMChunk) : Except String StreamRound :=
  let st := runStream chunks
  if st.finished then
    .ok { events := st.batches.map Event.assistant
          message := { role := .assistant, content := some (String.join st.batches)
                       tool_calls := st.calls, tool_call_id := none, name := none } }
  else .error noChunksError

/-- Modelled from the spec: the concatenation, in arrival order, of the
argument deltas of every fragment carrying index `i`. -/
def fragDeltas : List ToolCall → Nat → String
  | [], _ => ""
  | f :: rest, i =>
      (if f.index = i then f.function.arguments else "") ++ fragDeltas rest i

/-- Modelled from the spec: all partial tool-call fragments of a fragment
sequence, in arrival order. -/
def chunkFrags : List LLMChunk → List ToolCall
  | [] => []
  | c :: rest => c.tool_calls ++ chunkFrags rest

/-- Modelled from the spec: the ordered concatenation of every fragment's
arguments delta carrying index `i`, over a whole fragment sequence. -/
def argDeltas (chunks : List LLMChunk) (i : Nat) : String :=
  fragDeltas (chunkFrags chunks) i

/-- The merged entry the assembler currently holds for index `i`, if any. -/
def findCall : List ToolCall → Nat → Option ToolCall
  | [], _ => none
  | c :: rest, i => if c.index = i then some c else findCall rest i

/-- The argument string the assembler currently holds for index `i`. -/
def argsAt (calls : List ToolCall) (i : Nat) : Option String :=
  (findCall calls i).map fun c => c.function.arguments

/-- How consuming further fragments extends the argument string held for
index `i`: an open entry grows by the new deltas, a fresh index opens with
exactly its deltas. -/
def extendArgs (o : Option String) (frags : List ToolCall) (i : Nat) : Option String :=
  match o with
  | some a => some (a ++ fragDeltas frags i)
  | none =>
      if frags.any (fun f => f.index = i) then some (fragDeltas frags i) else none

theorem flushAcc_calls (st : StreamState) : (flushAcc st).calls = st.calls := by
  unfold flushAcc; split <;> rfl

theorem flushAcc_finished (st : StreamState) : (flushAcc st).finished = st.finished := by
  unfold flushAcc; split <;> rfl

theorem processChunk_calls (st : StreamState) (c : LLMChunk) :
    (processChunk st c).calls = c.tool_calls.foldl insertFrag st.calls := by
  simp only [processChunk, apply_ite StreamState.calls, flushAcc_calls, ite_self]

theorem processChunk_finished (st : StreamState) (c : LLMChunk) :
    (processChunk st c).finished = (st.finished || c.finish_reason.isSome) := by
  by_cases h : c.finish_reason.isSome <;>
    simp [processChunk, h, apply_ite StreamState.finished, flushAcc_finished]

theorem foldl_processChunk_calls (chunks : List LLMChunk) :
    ∀ st : StreamState,
      (chunks.foldl processChunk st).calls = (chunkFrags chunks).foldl insertFrag st.calls := by
  induction chunks with
  | nil => intro st; rfl
  | cons c rest ih =>
      intro st
      simp only [List.foldl_cons, chunkFrags, List.foldl_append, ih, processChunk_calls]

theorem fragDeltas_append (F G : List ToolCall) (i : Nat) :
    fragDeltas (F ++ G) i = fragDeltas F i ++ fragDeltas G i := by
  induction F with
  | nil => simp [fragDeltas, String.empty_append]
  | cons f rest ih => simp [fragDeltas, ih, String.append_assoc]

theorem fragDeltas_of_not_any (F : List ToolCall) (i : Nat)
    (h : F.any (fun f => f.index = i) = false) : fragDeltas F i = "" := by
  induction F with
  | nil => rfl
  | cons f rest ih =>
      simp only [List.any_cons, Bool.or_eq_false_iff, decide_eq_false_iff_not] at h
      simp [fragDeltas, h.1, ih h.2, String.empty_append]

theorem mergeInto_index (c f : ToolCall) : (mergeInto c f).index = c.index := rfl

theorem findCall_insertFrag (calls : List ToolCall) (f : ToolCall) (i : Nat) :
    findCall (insertFrag calls f) i =
      if i = f.index then
        match findCall calls f.index with
        | none => some f
        | some c => some (mergeInto c f)
      else findCall calls i := by
  induction calls with
  | nil =>
      by_cases hi : i = f.index
      · subst hi; simp [insertFrag, findCall]
      · have hfi : ¬ f.index = i := fun h => hi h.symm
        simp [insertFrag, findCall, hi, hfi]
  | cons c rest ih =>
      by_cases hc : c.index = f.index
      · by_cases hi : i = f.index
        · subst hi
          simp [insertFrag, hc, findCall, mergeInto_index]
        · have hci : ¬ c.index = i := fun h => hi (h.symm.trans hc)
          have hfi : ¬ f.index = i := fun h => hi h.symm
          simp [insertFrag, hc, findCall, mergeInto_index, hci, hi, hfi]
      · by_cases hi : i = f.index
        · subst hi
          simp [insertFrag, hc, findCall, ih]
        · by_cases hcieq : c.index = i
          · simp [insertFrag, hc, findCall, hcieq, hi]
          · simp [insertFrag, hc, findCall, hcieq, hi, ih]

theorem extendArgs_cons (calls : List ToolCall) (f : ToolCall)
    (rest : List ToolCall) (i : Nat) :
    extendArgs (argsAt (insertFrag calls f) i) rest i =
      extendArgs (argsAt calls i) (f :: rest) i := by
  unfold argsAt
  rw [findCall_insertFrag]
  by_cases hi : i = f.index
  · subst hi
    rw [if_pos rfl]
    match hfc : findCall calls f.index with
    | none => simp [extendArgs, fragDeltas, String.append_assoc]
    | some c => simp [extendArgs, fragDeltas, mergeInto, String.append_assoc]
  · rw [if_neg hi]
    have hfi : ¬ f.index = i := fun h => hi h.symm
    match hfc : findCall calls i with
    | none => simp [extendArgs, fragDeltas, hfi, String.empty_append]
    | some c => simp [extendArgs, fragDeltas, hfi, String.empty_append]

theorem argsAt_foldl_insertFrag (frags : List ToolCall) :
    ∀ (calls : List ToolCall) (i : Nat),
      argsAt (frags.foldl insertFrag calls) i = extendArgs (argsAt calls i) frags i := by
  induction frags with
  | nil =>
      intro calls i
      match h : argsAt calls i with
      | none => simp [extendArgs, h]
      | some a => simp [extendArgs, h, fragDeltas, String.append_empty]
  | cons f rest ih =>
      intro calls i
      rw [List.foldl_cons, ih, extendArgs_cons]

theorem insertFrag_map_index (calls : List ToolCall) (f : ToolCall) :
    (insertFrag calls f).map (fun c => c.index) =
      if calls.any (fun c => c.index = f.index) then calls.map (fun c => c.index)
      else calls.map (fun c => c.index) ++ [f.index] := by
  induction calls with
  | nil => simp [insertFrag]
  | cons c rest ih =>
      by_cases hc : c.index = f.index
      · simp [insertFrag, hc, mergeInto_index, List.any_cons]
      · simp [insertFrag, hc, List.any_cons, ih]
        split <;> simp

theorem insertFrag_nodup (calls : List ToolCall) (f : ToolCall)
    (h : (calls.map (fun c => c.index)).Nodup) :
    ((insertFrag calls f).map (fun c => c.index)).Nodup := by
  rw [insertFrag_map_index]
  split
  · exact h
  · next hany =>
      have : f.index ∉ calls.map (fun c => c.index) := by
        intro hmem
        rcases List.mem_map.mp hmem with ⟨c, hc, hidx⟩
        have : calls.any (fun c => c.index = f.index) = true :=
          List.any_eq_true.mpr ⟨c, hc, by simp [hidx]⟩
        simp [this] at hany
      simp [List.nodup_append, h, this]

theorem foldl_insertFrag_nodup (frags : List ToolCall) :
    ∀ calls : List ToolCall, (calls.map (fun c => c.index)).Nodup →
      ((frags.foldl insertFrag calls).map (fun c => c.index)).Nodup := by
  induction frags with
  | nil => intro calls h; exact h
  | cons f rest ih =>
      intro calls h
      exact ih _ (insertFrag_nodup calls f h)

theorem runStream_calls_nodup (chunks : List LLMChunk) :
    ((runStream chunks).calls.map (fun c => c.index)).Nodup := by
  unfold runStream
  rw [foldl_processChunk_calls]
  exact foldl_insertFrag_nodup _ [] (by simp)

theorem findCall_of_mem (calls : List ToolCall) (c : ToolCall)
    (hnd : (calls.map (fun x => x.index)).Nodup) (hmem : c ∈ calls) :
    findCall calls c.index = some c := by
  induction calls with
  | nil => cases hmem
  | cons hd rest ih =>
      rcases List.mem_cons.mp hmem with rfl | hrest
      · simp [findCall]
      · have hne : ¬ hd.index = c.index := by
          intro heq
          have : hd.index ∈ rest.map (fun x => x.index) :=
            heq ▸ List.mem_map.mpr ⟨c, hrest, rfl⟩
          exact (List.nodup_cons.mp (by simpa using hnd)).1 this
        have := ih (List.nodup_cons.mp (by simpa using hnd)).2 hrest
        simp [findCall, hne, this]

theorem runStream_argsAt (chunks : List LLMChunk) (i : Nat) :
    argsAt (runStream chunks).calls i = extendArgs none (chunkFrags chunks) i := by
  unfold runStream
  rw [foldl_processChunk_calls, argsAt_foldl_insertFrag]
  rfl

/-- C1: for every sequence of streamed fragments that assembles successfully,
every tool call held by the assistant message appended to history carries an
argument string equal to the ordered concatenation of the argument deltas of
all fragments bearing that call's index. -/
theorem streamed_tool_call_arguments_merge (chunks : List LLMChunk)
    (r : StreamRound) (c : ToolCall) (hok : streamRound chunks = .ok r)
    (hmem : c ∈ r.message.tool_calls) :
    c.function.arguments = argDeltas chunks c.index := by
  have hcalls : r.message.tool_calls = (runStream chunks).calls := by
    simp only [streamRound] at hok
    split at hok
    · cases hok; rfl
    · cases hok
  rw [hcalls] at hmem
  have hfind : findCall (runStream chunks).calls c.index = some c :=
    findCall_of_mem _ _ (runStream_calls_nodup chunks) hmem
  have hargs : argsAt (runStream chunks).calls c.index = some c.function.arguments := by
    simp [argsAt, hfind]
  rw [runStream_argsAt] at hargs
  simp only [extendArgs] at hargs
  by_cases hany : (chunkFrags chunks).any (fun f => f.index = c.index) = true
  · rw [if_pos hany] at hargs
    exact (Option.some.inj hargs).symm
  · rw [if_neg hany] at hargs
    cases hargs

/-- C1 witness: the merge scenario of
`test_act_merges_streamed_tool_call_arguments`: two fragments with index 0
deliver the argument string in two pieces; the assembled assistant message
holds the full concatenation. -/
def mergeChunks : List LLMChunk :=
  [⟨some "Planning: ", [], none⟩,
   ⟨some "", [⟨"tc_merge", 0, ⟨"todo", "\x7b\"action\": \"read\", \"note\": \"First "⟩⟩], none⟩,
   ⟨some "", [⟨"tc_merge", 0, ⟨"todo", "part\"\x7d"⟩⟩], some "stop"⟩]

/-- The round the assembler produces on `mergeChunks`. -/
def mergeRound : StreamRound :=
  { events := [.assistant "Planning: "]
    message := { role := .assistant, content := some "Planning: "
                 tool_calls := [⟨"tc_merge", 0, ⟨"todo", "\x7b\"action\": \"read\", \"note\": \"First part\"\x7d"⟩⟩]
                 tool_call_id := none, name := none } }

/-- The fully merged tool call of the `mergeChunks` scenario. -/
def mergedCallW : ToolCall :=
  ⟨"tc_merge", 0, ⟨"todo", "\x7b\"action\": \"read\", \"note\": \"First part\"\x7d"⟩⟩

theorem streamed_tool_call_arguments_merge_witness :
    streamRound mergeChunks = .ok mergeRound ∧
      mergedCallW ∈ mergeRound.message.tool_calls ∧
      mergedCallW.function.arguments = argDeltas mergeChunks mergedCallW.index :=
  ⟨rfl, by simp [mergeRound, mergedCallW],
    streamed_tool_call_arguments_merge mergeChunks mergeRound mergedCallW rfl
      (by simp [mergeRound, mergedCallW])⟩

theorem foldl_processChunk_not_finished (chunks : List LLMChunk) :
    ∀ st : StreamState, st.finished = false →
      (∀ c ∈ chunks, c.finish_reason = none) →
      (chunks.foldl processChunk st).finished = false := by
  induction chunks with
  | nil => intro st h _; exact h
  | cons c rest ih =>
      intro st h hall
      rw [List.foldl_cons]
      refine ih _ ?_ fun d hd => hall d (List.mem_cons_of_mem c hd)
      rw [processChunk_finished, h, hall c (List.mem_cons_self c rest)]
      rfl

/-- C2 counterexample: on the fragment sequence of
`test_act_raises_when_stream_never_signals_finish` (a single fragment
"partial" and no terminal signal), the streamed round fails with the error
message "Streamed completion returned no chunks" — not with the message the
claim states, "streamed completion ended without a finish signal". -/
theorem stream_no_finish_message_counterexample :
    streamRound [⟨some "partial", [], none⟩] =
        .error "Streamed completion returned no chunks" ∧
      ("Streamed completion returned no chunks" : String) ≠
        "streamed completion ended without a finish signal" :=
  ⟨rfl, by decide⟩

/-- C2 (amended): for every streamed fragment sequence that never contains a
fragment with non-null finish_reason, the streamed round fails with the
fatal error "Streamed completion returned no chunks", raised to the caller
instead of any final event (the round produces no `.ok` outcome), and the
failure is not retried. -/
theorem stream_no_finish_raises (chunks : List LLMChunk)
    (hnf : ∀ c ∈ chunks, c.finish_reason = none) :
    streamRound chunks = .error "Streamed completion returned no chunks" := by
  have hfin : (runStream chunks).finished = false :=
    foldl_processChunk_not_finished chunks initStream rfl hnf
  simp [streamRound, hfin, noChunksError]

theorem stream_no_finish_raises_witness :
    streamRound [⟨some "partial", [], none⟩] =
      .error "Streamed completion returned no chunks" :=
  stream_no_finish_raises [⟨some "partial", [], none⟩] (by simp)

/-- The fragment sequence of `test_act_streams_batched_chunks_in_order`:
seven text deltas, with the finish signal on the last. -/
def c3Chunks : List LLMChunk :=
  [⟨some "Hello", [], none⟩, ⟨some " from", [], none⟩, ⟨some " Vibe", [], none⟩,
   ⟨some "! ", [], none⟩, ⟨some "More", [], none⟩, ⟨some " and", [], none⟩,
   ⟨some " end", [], some "stop"⟩]

/-- C3: on the fragment sequence with text deltas "Hello", " from",
" Vibe", "! ", "More", " and", " end" and the finish signal on the last
fragment, the streaming round emits exactly the two AssistantEvents
"Hello from Vibe! More" and " and end", in that order, and the assistant
history message stores the full concatenation
"Hello from Vibe! More and end". -/
theorem streamed_batches_flush_in_order :
    streamRound c3Chunks =
      .ok { events := [.assistant "Hello from Vibe! More", .assistant " and end"]
            message := { role := .assistant
                         content := some "Hello from Vibe! More and end"
                         tool_calls := [], tool_call_id := none, name := none } } :=
  rfl

/-! ## Tool Execution Gate (spec section 4.4) -/

/-- Modelled from the spec: an ApprovalDecision, YES or NO plus an optional
human-readable reason, produced synchronously by the external approval
callback. -/
inductive ApprovalDecision where
  | yes
  | no (reason : String)
deriving DecidableEq

/-- Modelled from the spec: the fixed cancellation marker embedded in a
denied call's skip_reason; the test suite pins the marker text
(`test_act_handles_user_cancellation_during_streaming` checks for
"<user_cancellation>" in the skip_reason). -/
def cancellationMarker : String := "<user_cancellation>"

/-- Modelled from the spec: the tool-role closing message appended to
history for a resolved call, referencing the originating call id. -/
def toolMessage (c : ToolCall) (content : String) : LLMMessage :=
  { role := .tool, content := some content, tool_calls := []
    tool_call_id := some c.id, name := some c.function.name }

/-- Modelled from the spec: the outcome of dispatching one batch of tool
calls: the events yielded, the tool-role messages appended to history, the
calls actually dispatched (run), and whether the batch halted early on a
denial. -/
structure DispatchResult where
  events : List Event
  messages : List LLMMessage
  dispatched : List ToolCall
  halted : Bool
deriving DecidableEq

/-- Modelled from the spec: dispatch one batch of tool calls in order. Each
call yields a ToolCallEvent, then the approval callback decides: NO yields
a SKIPPED ToolResultEvent whose skip_reason embeds the cancellation marker
plus the callback's reason, appends that result as the tool-role closing
message, and halts — no remaining calls of the batch are dispatched. YES
runs the tool; failures become FAILED results and the batch continues. -/
def dispatchBatch (approve : ToolCall → ApprovalDecision)
    (runTool : ToolCall → Except String String) : List ToolCall → DispatchResult
  | [] => ⟨[], [], [], false⟩
  | c :: rest =>
      let callEv := Event.toolCall c.function.name c.id c.function.arguments
      match approve c with
      | .no reason =>
          let sr := cancellationMarker ++ reason
          ⟨[callEv, .toolResult c.function.name c.id none true (some sr)],
           [toolMessage c sr], [], true⟩
      | .yes =>
          let step :=
            match runTool c with
            | .ok out => (Event.toolResult c.function.name c.id none false none,
                toolMessage c out)
            | .error e => (Event.toolResult c.function.name c.id (some e) false none,
                toolMessage c e)
          let tail := dispatchBatch approve runTool rest
          ⟨callEv :: step.1 :: tail.events, step.2 :: tail.messages,
           c :: tail.dispatched, tail.halted⟩

/-- Modelled from the spec: a halted batch ends the round — the turn loop
issues no further backend call for this round. -/
def issuesFollowupBackendCall (r : DispatchResult) : Bool := !r.halted

/-- Modelled from the spec: the after-turn middleware hooks run only when
the round was not halted by a denial. -/
def runsAfterTurnHooks (r : DispatchResult) : Bool := !r.halted

theorem getLast?_cons_of_eq_some {α : Type} (a : α) {l : List α} {e : α}
    (h : l.getLast? = some e) : (a :: l).getLast? = some e := by
  cases l with
  | nil => cases h
  | cons b t => rw [List.getLast?_cons_cons]; exact h

/-- C4: whenever the approval callback answers NO on the call at position
`k` of a batch (approving all earlier ones), the batch yields as its last
event a ToolResultEvent with skipped = true whose skip_reason is the fixed
cancellation marker plus the callback's reason, appends the matching
tool-role closing message as the last history message, dispatches only the
calls before position `k`, and halts: no further backend call is issued for
the round and the after-turn middleware hooks do not run. -/
theorem denied_tool_call_halts_batch (approve : ToolCall → ApprovalDecision)
    (runTool : ToolCall → Except String String) :
    ∀ (calls : List ToolCall) (k : Nat) (hk : k < calls.length) (r : String),
      (∀ j (hj : j < k), approve (calls.get ⟨j, Nat.lt_trans hj hk⟩) = .yes) →
      approve (calls.get ⟨k, hk⟩) = .no r →
      (dispatchBatch approve runTool calls).halted = true ∧
      (dispatchBatch approve runTool calls).dispatched = calls.take k ∧
      (dispatchBatch approve runTool calls).events.getLast? =
        some (.toolResult (calls.get ⟨k, hk⟩).function.name (calls.get ⟨k, hk⟩).id
          none true (some (cancellationMarker ++ r))) ∧
      (dispatchBatch approve runTool calls).messages.getLast? =
        some (toolMessage (calls.get ⟨k, hk⟩) (cancellationMarker ++ r)) ∧
      issuesFollowupBackendCall (dispatchBatch approve runTool calls) = false ∧
      runsAfterTurnHooks (dispatchBatch approve runTool calls) = false := by
  intro calls
  induction calls with
  | nil => intro k hk; exact absurd hk (Nat.not_lt_zero k)
  | cons c rest ih =>
      intro k hk r hyes hno
      cases k with
      | zero =>
          have hc : approve c = .no r := hno
          refine ⟨?_, ?_, ?_, ?_, ?_, ?_⟩ <;>
            simp [dispatchBatch, hc, issuesFollowupBackendCall, runsAfterTurnHooks]
      | succ k =>
          have hc : approve c = .yes := hyes 0 (Nat.succ_pos k)
          have hk' : k < rest.length := Nat.lt_of_succ_lt_succ hk
          have hyes' : ∀ j (hj : j < k), approve (rest.get ⟨j, Nat.lt_trans hj hk'⟩) = .yes :=
            fun j hj => hyes (j + 1) (Nat.succ_lt_succ hj)
          have hno' : approve (rest.get ⟨k, hk'⟩) = .no r := hno
          obtain ⟨h1, h2, h3, h4, h5, h6⟩ := ih k hk' r hyes' hno'
          refine ⟨?_, ?_, ?_, ?_, ?_, ?_⟩ <;>
            simp [dispatchBatch, hc, issuesFollowupBackendCall, runsAfterTurnHooks,
              h1, h2, getLast?_cons_of_eq_some _ h3, getLast?_cons_of_eq_some _ h4] at h5 h6 ⊢

/-- The approved first call of the C4 witness batch. -/
def deniedBatchCall0 : ToolCall := ⟨"tc_a", 0, ⟨"todo", "\x7b\x7d"⟩⟩

/-- The denied second call of the C4 witness batch, as in
`test_act_handles_user_cancellation_during_streaming`. -/
def deniedBatchCall1 : ToolCall := ⟨"tc_cancel", 1, ⟨"todo", "\x7b\"action\": \"read\"\x7d"⟩⟩

/-- The approval callback of the C4 witness: denies `tc_cancel`. -/
def deniedBatchApprove : ToolCall → ApprovalDecision :=
  fun c => if c.id = "tc_cancel" then .no "Operation cancelled by user" else .yes

/-- The tool runner of the C4 witness. -/
def deniedBatchRun : ToolCall → Except String String := fun _ => .ok "ok"

theorem denied_tool_call_halts_batch_witness :
    (dispatchBatch deniedBatchApprove deniedBatchRun [deniedBatchCall0, deniedBatchCall1]).halted = true ∧
    (dispatchBatch deniedBatchApprove deniedBatchRun [deniedBatchCall0, deniedBatchCall1]).dispatched =
      [deniedBatchCall0, deniedBatchCall1].take 1 ∧
    (dispatchBatch deniedBatchApprove deniedBatchRun [deniedBatchCall0, deniedBatchCall1]).events.getLast? =
      some (.toolResult "todo" "tc_cancel" none true
        (some (cancellationMarker ++ "Operation cancelled by user"))) ∧
    (dispatchBatch deniedBatchApprove deniedBatchRun [deniedBatchCall0, deniedBatchCall1]).messages.getLast? =
      some (toolMessage deniedBatchCall1 (cancellationMarker ++ "Operation cancelled by user")) ∧
    issuesFollowupBackendCall
      (dispatchBatch deniedBatchApprove deniedBatchRun [deniedBatchCall0, deniedBatchCall1]) = false ∧
    runsAfterTurnHooks
      (dispatchBatch deniedBatchApprove deniedBatchRun [deniedBatchCall0, deniedBatchCall1]) = false :=
  denied_tool_call_halts_batch deniedBatchApprove deniedBatchRun
    [deniedBatchCall0, deniedBatchCall1] 1 (by decide) "Operation cancelled by user"
    (fun j hj => by
      have h0 : j = 0 := Nat.lt_one_iff.mp hj
      subst h0
      rfl)
    rfl

/-! ## ACP bash tool (spec section 4.4, `vibe.acp.tools.builtins.bash.Bash`) -/

/-- Modelled from the spec: the bash tool's arguments
(`vibe.core.tools.builtins.bash.BashArgs`): the command line and an optional
per-call timeout override in seconds. -/
structure BashArgs where
  command : String
  timeout : Option Nat
deriving DecidableEq

/-- Modelled from the spec: the bash tool's configuration with its default
timeout in seconds (`BashToolConfig.default_timeout`). -/
structure BashToolConfig where
  default_timeout : Nat
deriving DecidableEq

/-- Modelled from the spec: the ACP bash tool's state (`AcpBashState`):
whether a protocol connection is bound, and the session and tool-call ids. -/
structure AcpBashState where
  connection : Bool
  session_id : Option String
  tool_call_id : Option String
deriving DecidableEq

/-- Modelled from the spec: the bash tool's result
(`vibe.core.tools.builtins.bash.BashResult`). -/
structure BashResult where
  stdout : String
  stderr : String
  returncode : Int
deriving DecidableEq

/-- Modelled from the spec: the observable behaviour of the terminal the
tool creates over the connection: creation failure, seconds until the
command exits, the exit code the terminal reports (possibly null), the
captured output, and whether the best-effort kill or the release raise. -/
structure TerminalBehavior where
  createError : Option String
  waitSeconds : Nat
  exitCode : Option Int
  output : String
  killRaises : Bool
  releaseRaises : Bool
deriving DecidableEq

/-- The side-effecting steps `Bash.run` attempts, recorded as a trace: the
`failed` flag notes an attempt whose own failure was swallowed. -/
inductive BashAction where
  | createTerminal
  | killAttempt (failed : Bool)
  | releaseAttempt (failed : Bool)
deriving DecidableEq

/-- Modelled from the spec: `Bash.run`: fail fast on missing connection or
session id; create the terminal; wait with an effective timeout equal to
the call-supplied override, else the configured default. On timeout, a
best-effort kill and the scoped release are attempted (their failures
swallowed) and the timeout message is surfaced; a null exit code counts as
success with returncode 0; a non-zero exit code becomes a failure embedding
the return code and captured output. The message texts are the ones the
test suite pins (`tests/acp/test_bash.py`). -/
def bashRun (config : BashToolConfig) (state : AcpBashState)
    (term : TerminalBehavior) (args : BashArgs) :
    Except String BashResult × List BashAction :=
  if state.connection = false then
    (.error "Connection not available in tool state. This tool can only be used within an ACP session.", [])
  else if state.session_id = none then
    (.error "Session ID not available in tool state. This tool can only be used within an ACP session.", [])
  else
    match term.createError with
    | some e => (.error ("Failed to create terminal: " ++ e), [])
    | none =>
        let t := args.timeout.getD config.default_timeout
        if t < term.waitSeconds then
          (.error ("Command timed out after " ++ toString t ++ "s: '" ++ args.command ++ "'"),
           [.createTerminal, .killAttempt term.killRaises, .releaseAttempt term.releaseRaises])
        else
          let rc := term.exitCode.getD 0
          if rc = 0 then
            (.ok ⟨term.output, "", 0⟩, [.createTerminal, .releaseAttempt term.releaseRaises])
          else
            (.error ("Command failed: '" ++ args.command ++ "'" ++ "\nReturn code: " ++
                toString rc ++ "\nStdout: " ++ term.output),
             [.createTerminal, .releaseAttempt term.releaseRaises])

/-- C5: every tool invocation that exceeds its effective timeout `t` (the
call-supplied override when given, else the configured default) on command
`c` fails with exactly "Command timed out after {t}s: '{c}'"; a best-effort
kill is attempted, and since the outcome does not depend on whether the
kill itself fails, a kill failure is swallowed and the same message is
still surfaced. -/
theorem bash_timeout_message (config : BashToolConfig) (state : AcpBashState)
    (term : TerminalBehavior) (args : BashArgs) (t : Nat)
    (hconn : state.connection = true)
    (hsess : state.session_id ≠ none)
    (hcreate : term.createError = none)
    (ht : t = args.timeout.getD config.default_timeout)
    (hto : t < term.waitSeconds) :
    (bashRun config state term args).1 =
      .error ("Command timed out after " ++ toString t ++ "s: '" ++ args.command ++ "'") ∧
    BashAction.killAttempt term.killRaises ∈ (bashRun config state term args).2 := by
  subst ht
  constructor <;> simp [bashRun, hconn, hsess, hcreate, hto]

/-- C5 witness configuration: default timeout 30s, overridden by the call
to 1s, command taking 20s, with a kill that raises — the scenario of
`test_run_with_timeout_raises_error_and_kills` and
`test_run_timeout_handles_kill_failure`. -/
def timeoutState : AcpBashState := ⟨true, some "test_session", some "test_call"⟩

/-- C5 witness terminal: the command outlives the timeout and the
best-effort kill itself raises. -/
def timeoutTerm : TerminalBehavior := ⟨none, 20, none, "partial output", true, false⟩

theorem bash_timeout_message_witness :
    (bashRun ⟨30⟩ timeoutState timeoutTerm ⟨"slow_command", some 1⟩).1 =
      .error "Command timed out after 1s: 'slow_command'" ∧
    BashAction.killAttempt true ∈ (bashRun ⟨30⟩ timeoutState timeoutTerm ⟨"slow_command", some 1⟩).2 :=
  bash_timeout_message ⟨30⟩ timeoutState timeoutTerm ⟨"slow_command", some 1⟩ 1
    rfl (by simp [timeoutState]) rfl rfl (by decide)

/-- C10: when the terminal reports a null exit code after the command
completes within the timeout, the bash tool's run succeeds with returncode
0 and the captured output rather than treating the missing exit code as a
failure. -/
theorem bash_none_exit_code_succeeds (config : BashToolConfig)
    (state : AcpBashState) (term : TerminalBehavior) (args : BashArgs)
    (hconn : state.connection = true)
    (hsess : state.session_id ≠ none)
    (hcreate : term.createError = none)
    (hwithin : ¬ args.timeout.getD config.default_timeout < term.waitSeconds)
    (hexit : term.exitCode = none) :
    (bashRun config state term args).1 = .ok ⟨term.output, "", 0⟩ := by
  simp [bashRun, hconn, hsess, hcreate, hwithin, hexit]

/-- C10 witness terminal: finishes immediately, reports a null exit code
and the output "output", as in `test_run_with_none_exit_code`. -/
def noneExitTerm : TerminalBehavior := ⟨none, 0, none, "output", false, false⟩

theorem bash_none_exit_code_succeeds_witness :
    (bashRun ⟨60⟩ timeoutState noneExitTerm ⟨"test_command", none⟩).1 =
      .ok ⟨"output", "", 0⟩ :=
  bash_none_exit_code_succeeds ⟨60⟩ timeoutState noneExitTerm ⟨"test_command", none⟩
    rfl (by simp [timeoutState]) rfl (by decide) rfl

/-! ## Stats, auto-compaction and the turn loop (spec sections 4.2, 4.3) -/

/-- Modelled from the spec: the usage statistics of one session
(`vibe.core.types.Stats`): running context tokens, session totals, and the
pricing fields derived from the active model. -/
structure Stats where
  context_tokens : Nat
  session_total_tokens : Nat
  input_price_per_million : ℚ
  output_price_per_million : ℚ
deriving DecidableEq

/-- Modelled from the spec: one session's Conversation State as the Turn
Loop sees it: the ordered message history and the usage statistics. -/
structure AgentState where
  messages : List LLMMessage
  stats : Stats
deriving DecidableEq

/-- A plain user-role history message. -/
def userMessage (text : String) : LLMMessage := ⟨.user, some text, [], none, none⟩

/-- A plain assistant-role history message. -/
def assistantMessage (text : String) : LLMMessage := ⟨.assistant, some text, [], none, none⟩

/-- Modelled from the spec: the fixed summarization template embedding the
current user input, "Last request from user was: {input}". -/
def compactionPrompt (input : String) : String :=
  "Summarize this conversation so it can be continued in a fresh context. " ++
    ("Last request from user was: " ++ input)

/-- Modelled from the spec: the summarization request sent to the backend:
the pre-compaction history followed by the templated user message. -/
def compactionRequest (history : List LLMMessage) (input : String) : List LLMMessage :=
  history ++ [userMessage (compactionPrompt input)]

/-- Modelled from the spec: the post-compaction history: the original
system message followed by one synthesized context message embedding the
summary and the templated user input (the observer in
`test_auto_compact_triggers_and_batches_observer` sees exactly roles
[system, user, assistant] with the template inside the user message). -/
def compactedHistory (history : List LLMMessage) (input summary : String) :
    List LLMMessage :=
  [history.headD (⟨.system, some "You are Vibe, a super useful programming assistant.", [], none, none⟩),
   userMessage (compactionPrompt input ++ ("\n\n" ++ summary))]

/-- Modelled from the spec: the observable outcome of one `act()` call:
the ordered event sequence, the final Conversation State, and the requests
issued to the backend in order. -/
structure ActResult where
  events : List Event
  state : AgentState
  requests : List (List LLMMessage)
deriving DecidableEq

/-- Modelled from the spec: one `act()` call of the Turn Loop for a
text-only round, with the built-in compaction middleware: when
`context_tokens >= threshold` (threshold > 0) at the start of the turn, it
yields CompactStartEvent, summarizes via the backend using the fixed
template, replaces history, yields CompactEndEvent with the token count of
the post-compaction history, and then finishes the turn toward the final
AssistantEvent; otherwise a plain turn runs. The backend is the `respond`
parameter, token counting the `countTokens` parameter. -/
def act (threshold : Nat) (countTokens : List LLMMessage → Nat)
    (respond : List LLMMessage → String) (st : AgentState) (input : String) :
    ActResult :=
  if 0 < threshold ∧ threshold ≤ st.stats.context_tokens then
    let oldTokens := st.stats.context_tokens
    let req := compactionRequest st.messages input
    let summary := respond req
    let newHistory := compactedHistory st.messages input summary
    let newTokens := countTokens newHistory
    let final := respond newHistory
    { events := [.compactStart oldTokens threshold, .compactEnd oldTokens newTokens,
        .assistant final]
      state := { messages := newHistory ++ [assistantMessage final]
                 stats := { st.stats with context_tokens := newTokens } }
      requests := [req, newHistory] }
  else
    let history := st.messages ++ [userMessage input]
    let final := respond history
    { events := [.assistant final]
      state := { messages := history ++ [assistantMessage final], stats := st.stats }
      requests := [history] }

/-- C6: whenever `context_tokens >= threshold` with threshold > 0 at the
start of a turn, `act` yields CompactStartEvent, then CompactEndEvent, then
the final AssistantEvent, in that order; the start event carries the
triggering context token value, the end event's new_context_tokens is the
token count computed from the post-compaction history, and the first
backend request is the summarization request, whose last message embeds the
current user input via the template "Last request from user was:
{input}". -/
theorem auto_compact_event_order (threshold : Nat)
    (countTokens : List LLMMessage → Nat) (respond : List LLMMessage → String)
    (st : AgentState) (input : String)
    (hpos : 0 < threshold) (htrig : threshold ≤ st.stats.context_tokens) :
    (act threshold countTokens respond st input).events =
      [.compactStart st.stats.context_tokens threshold,
       .compactEnd st.stats.context_tokens
         (countTokens (compactedHistory st.messages input
           (respond (compactionRequest st.messages input)))),
       .assistant (respond (compactedHistory st.messages input
         (respond (compactionRequest st.messages input))))] ∧
    (act threshold countTokens respond st input).requests.head? =
      some (compactionRequest st.messages input) ∧
    (compactionRequest st.messages input).getLast? =
      some (userMessage (compactionPrompt input)) ∧
    ∃ pre : String,
      compactionPrompt input = pre ++ ("Last request from user was: " ++ input) := by
  refine ⟨?_, ?_, ?_, ?_⟩
  · simp [act, hpos, htrig]
  · simp [act, hpos, htrig]
  · simp [compactionRequest]
  · exact ⟨"Summarize this conversation so it can be continued in a fresh context. ", rfl⟩

/-- C6 witness session: context_tokens 2 against threshold 1, as in
`test_auto_compact_triggers_and_batches_observer`. -/
def compactSession : AgentState :=
  { messages := [⟨.system, some "You are Vibe, a super useful programming assistant.", [], none, none⟩]
    stats := ⟨2, 0, 0, 0⟩ }

/-- C6 witness backend: always replies "<r>". -/
def compactRespond : List LLMMessage → String := fun _ => "<r>"

/-- C6 witness token counter: every history counts 1 token. -/
def compactCount : List LLMMessage → Nat := fun _ => 1

theorem auto_compact_event_order_witness :
    (act 1 compactCount compactRespond compactSession "Hello").events =
      [.compactStart 2 1, .compactEnd 2 1, .assistant "<r>"] ∧
    (act 1 compactCount compactRespond compactSession "Hello").requests.head? =
      some (compactionRequest compactSession.messages "Hello") ∧
    (compactionRequest compactSession.messages "Hello").getLast? =
      some (userMessage (compactionPrompt "Hello")) ∧
    ∃ pre : String,
      compactionPrompt "Hello" = pre ++ ("Last request from user was: " ++ "Hello") :=
  auto_compact_event_order 1 compactCount compactRespond compactSession "Hello"
    (by decide) (by decide)

/-! ## Session Registry (spec section 4.5, `vibe.acp.acp_agent.VibeAcpAgent`) -/

/-- Modelled from the spec: one entry of the configuration's model list
(`vibe.core.config.ModelConfig`): name and pricing. -/
structure ModelConfig where
  name : String
  input_price : ℚ
  output_price : ℚ
deriving DecidableEq

/-- Modelled from the spec: one session's agent as the registry sees it:
the active model id, the conversation history, the usage statistics, and
the `active_model` values saved to the configuration so far. -/
structure SessionAgent where
  active_model : String
  messages : List LLMMessage
  stats : Stats
  saved_active_models : List String
deriving DecidableEq

/-- Look a model id up in the configured model list. -/
def findModel : List ModelConfig → String → Option ModelConfig
  | [], _ => none
  | m :: rest, id => if m.name = id then some m else findModel rest id

/-- Modelled from the spec: `setSessionModel`: an empty or unknown modelId
is a no-op reported as an empty result; a known modelId switches the active
model, updates the derived pricing statistics, saves the choice to the
configuration, and reloads the Conversation State with the identical
message list (the tests pin that a known id equal to the current model also
returns a non-empty success response). -/
def setSessionModel (models : List ModelConfig) (s : SessionAgent)
    (modelId : String) : Option SessionAgent :=
  if modelId = "" then none
  else
    match findModel models modelId with
    | none => none
    | some m =>
        some { active_model := modelId
               messages := s.messages
               stats := { s.stats with
                 input_price_per_million := m.input_price
                 output_price_per_million := m.output_price }
               saved_active_models := s.saved_active_models ++ [modelId] }

/-- The configured model list of the setSessionModel scenarios: the two
models of `tests/acp/test_set_model.py`. -/
def twoModels : List ModelConfig :=
  [⟨"devstral-latest", 0.4, 2.0⟩, ⟨"devstral-small", 0.1, 0.3⟩]

/-- The session of the setSessionModel scenarios: active model
"devstral-latest", a three-message history, and the latest model's
pricing in the stats. -/
def modelSession : SessionAgent :=
  { active_model := "devstral-latest"
    messages := [⟨.system, some "You are Vibe, a super useful programming assistant.", [], none, none⟩,
      userMessage "Hello", assistantMessage "Hi there!"]
    stats := ⟨0, 0, 0.4, 2.0⟩
    saved_active_models := [] }

/-- C7 counterexample: setSessionModel with a modelId equal to the current
model does not report an empty/no-op result: on the configuration of
`test_set_model_to_same_model` it returns a non-empty (success) response,
exactly as that test asserts (`response is not None`). -/
theorem set_model_same_id_not_empty :
    modelSession.active_model = "devstral-latest" ∧
      setSessionModel twoModels modelSession "devstral-latest" ≠ none := by
  refine ⟨rfl, ?_⟩
  decide

/-- C7 (amended): setSessionModel with an empty or unknown modelId performs
no mutation and reports "no change" as an empty result; with a known,
nonempty modelId equal to the current model it instead returns a non-empty
success response while leaving the active model and the conversation
history unchanged. -/
theorem set_model_no_change_cases (models : List ModelConfig)
    (s : SessionAgent) (modelId : String) :
    (modelId = "" → setSessionModel models s modelId = none) ∧
    (findModel models modelId = none → setSessionModel models s modelId = none) ∧
    (∀ m, modelId ≠ "" → findModel models modelId = some m →
      modelId = s.active_model →
      ∃ s', setSessionModel models s modelId = some s' ∧
        s'.active_model = s.active_model ∧ s'.messages = s.messages) := by
  refine ⟨?_, ?_, ?_⟩
  · intro h
    simp [setSessionModel, h]
  · intro h
    by_cases he : modelId = ""
    · simp [setSessionModel, he]
    · simp [setSessionModel, he, h]
  · intro m hne hfind hid
    refine ⟨{ active_model := modelId
              messages := s.messages
              stats := { s.stats with
                input_price_per_million := m.input_price
                output_price_per_million := m.output_price }
              saved_active_models := s.saved_active_models ++ [modelId] },
      ?_, hid, rfl⟩
    simp [setSessionModel, hne, hfind]

theorem set_model_no_change_cases_witness :
    setSessionModel twoModels modelSession "" = none ∧
    setSessionModel twoModels modelSession "non-existent-model" = none ∧
    ∃ s', setSessionModel twoModels modelSession "devstral-latest" = some s' ∧
      s'.active_model = modelSession.active_model ∧
      s'.messages = modelSession.messages :=
  ⟨(set_model_no_change_cases twoModels modelSession "").1 rfl,
   (set_model_no_change_cases twoModels modelSession "non-existent-model").2.1 rfl,
   (set_model_no_change_cases twoModels modelSession "devstral-latest").2.2
     ⟨"devstral-latest", 0.4, 2.0⟩ (by decide) rfl rfl⟩

/-- C8: setSessionModel with a known modelId different from the current one
changes only the active model id and the derived pricing statistics: the
conversation history is fully preserved (same messages, hence same count
and role sequence) and the token statistics are untouched. -/
theorem set_model_switch_preserves_history (models : List ModelConfig)
    (s : SessionAgent) (modelId : String) (m : ModelConfig)
    (hne : modelId ≠ "")
    (hfind : findModel models modelId = some m)
    (hdiff : modelId ≠ s.active_model) :
    ∃ s', setSessionModel models s modelId = some s' ∧
      s'.active_model = modelId ∧
      s'.stats.input_price_per_million = m.input_price ∧
      s'.stats.output_price_per_million = m.output_price ∧
      s'.messages = s.messages ∧
      s'.messages.length = s.messages.length ∧
      s'.messages.map (fun msg => msg.role) = s.messages.map (fun msg => msg.role) ∧
      s'.stats.context_tokens = s.stats.context_tokens ∧
      s'.stats.session_total_tokens = s.stats.session_total_tokens := by
  refine ⟨{ active_model := modelId
            messages := s.messages
            stats := { s.stats with
              input_price_per_million := m.input_price
              output_price_per_million := m.output_price }
            saved_active_models := s.saved_active_models ++ [modelId] },
    ?_, rfl, rfl, rfl, rfl, rfl, rfl, rfl, rfl⟩
  simp [setSessionModel, hne, hfind]

theorem set_model_switch_preserves_history_witness :
    ∃ s', setSessionModel twoModels modelSession "devstral-small" = some s' ∧
      s'.active_model = "devstral-small" ∧
      s'.stats.input_price_per_million = (0.1 : ℚ) ∧
      s'.stats.output_price_per_million = (0.3 : ℚ) ∧
      s'.messages = modelSession.messages ∧
      s'.messages.length = modelSession.messages.length ∧
      s'.messages.map (fun msg => msg.role) = modelSession.messages.map (fun msg => msg.role) ∧
      s'.stats.context_tokens = modelSession.stats.context_tokens ∧
      s'.stats.session_total_tokens = modelSession.stats.session_total_tokens :=
  set_model_switch_preserves_history twoModels modelSession "devstral-small"
    ⟨"devstral-small", 0.1, 0.3⟩ (by decide) rfl (by decide)

/-- Modelled from the spec: the Session Registry: a map from external
session identifiers to independent session agents. -/
structure Registry where
  sessions : List (String × SessionAgent)
deriving DecidableEq

/-- Look a session id up in the registry. -/
def lookupSession : List (String × SessionAgent) → String → Option SessionAgent
  | [], _ => none
  | p :: rest, sid => if p.1 = sid then some p.2 else lookupSession rest sid

/-- Modelled from the spec: the fixed literal of the protocol error raised
for an unknown session id. -/
def invalidParams : String := "Invalid params"

/-- Modelled from the spec: `prompt(sessionId, content)`: look the session
up; an unknown sessionId fails with the "Invalid params" protocol error
before any state mutation (the registry is returned unchanged); otherwise
the user content is appended and one turn is driven against the backend. -/
def promptSession (reg : Registry) (sid : String) (content : String)
    (respond : List LLMMessage → String) : Registry × Except String String :=
  match lookupSession reg.sessions sid with
  | none => (reg, .error invalidParams)
  | some agent =>
      let history := agent.messages ++ [userMessage content]
      let reply := respond history
      let agent' := { agent with messages := history ++ [assistantMessage reply] }
      ({ sessions := reg.sessions.map fun p => if p.1 = sid then (p.1, agent') else p },
       .ok reply)

/-- C9: prompt on a sessionId not present in the registry raises a protocol
error whose text is exactly the fixed literal "Invalid params", and the
registry is returned unchanged — the rejection happens before any state
mutation. -/
theorem prompt_unknown_session_invalid_params (reg : Registry) (sid : String)
    (content : String) (respond : List LLMMessage → String)
    (hmiss : lookupSession reg.sessions sid = none) :
    promptSession reg sid content respond = (reg, .error "Invalid params") := by
  simp [promptSession, hmiss, invalidParams]

theorem prompt_unknown_session_invalid_params_witness :
    promptSession ⟨[]⟩ "fake-session-id" "Hello, world!" (fun _ => "Hi") =
      (⟨[]⟩, .error "Invalid params") :=
  prompt_unknown_session_invalid_params ⟨[]⟩ "fake-session-id" "Hello, world!"
    (fun _ => "Hi") rfl

end Vibe
